import Mathlib

/-!
Verification of the simple ETL pipeline
(`05-data-engineering/projects/simple-etl/etl_example.py`).

The pipeline is embedded shallowly:

* a CSV source file is an optional list of rows, each row a list of cell
  strings (`none` models a missing file); the splitting of text into cells
  is abstracted away, the header/`DictReader` logic is modelled faithfully;
* a Python dict produced by `csv.DictReader` is an association list from
  field names to `Option String` (`none` models Python's `None` fill value
  for short rows);
* Python string/int primitives (`strip`, `title`, `lower`, `int(...)`) are
  modelled over ASCII; `int(...)` failure (ValueError / TypeError) and
  `None.strip()` (AttributeError) are modelled with `Except`;
* the SQLite `users` table is a list of rows; `INSERT OR REPLACE` with the
  `id INTEGER PRIMARY KEY` and `email TEXT UNIQUE NOT NULL` constraints
  deletes every conflicting row (same id, or same non-NULL email) before
  appending the new row; a NOT NULL violation (NULL name or email with no
  default) aborts the single statement, which the Python code catches as
  `sqlite3.Error`;
* every `print` statement is modelled as a `Msg` appended to a log.
-/

namespace ETL

/-- Errors that Python code in the pipeline can raise. -/
inductive PyErr where
  | valueError
  | typeError
  | attributeError
deriving DecidableEq

/-- A row-dict as produced by `csv.DictReader`: field name to value, where a
value of `none` models Python `None` (the `restval` fill for short rows). -/
abbrev RawRecord := List (String × Option String)

/-- Dict lookup: `none` when the key is absent, `some v` when present with
value `v` (which may itself be Python `None`). -/
def getField : RawRecord → String → Option (Option String)
  | [], _ => none
  | (k0, v) :: rest, k => if k0 = k then some v else getField rest k

/-- Python `str.strip()` restricted to ASCII whitespace. -/
def pyStrip (s : String) : String :=
  ⟨((s.data.dropWhile Char.isWhitespace).reverse.dropWhile Char.isWhitespace).reverse⟩

/-- Python `str.lower()` restricted to ASCII. -/
def pyLower (s : String) : String :=
  ⟨s.data.map Char.toLower⟩

/-- Worker for `pyTitle`: the boolean records whether the previous character
was alphabetic (Python title-cases the first letter of each run). -/
def titleMap : Bool → List Char → List Char
  | _, [] => []
  | prevAlpha, c :: cs =>
    if c.isAlpha then
      (if prevAlpha then c.toLower else c.toUpper) :: titleMap true cs
    else
      c :: titleMap false cs

/-- Python `str.title()` restricted to ASCII. -/
def pyTitle (s : String) : String :=
  ⟨titleMap false s.data⟩

/-- Digit run after the first digit: Python 3 allows single underscores
between digits (`1_000`). Accumulates the value, `none` on a bad character. -/
def digitsVal : Nat → List Char → Option Nat
  | acc, [] => some acc
  | acc, '_' :: c :: cs =>
    if c.isDigit then digitsVal (acc * 10 + (c.toNat - 48)) cs else none
  | acc, c :: cs =>
    if c.isDigit then digitsVal (acc * 10 + (c.toNat - 48)) cs else none

/-- An unsigned integer literal: at least one digit, underscores between
digits. -/
def pyIntCore : List Char → Option Nat
  | [] => none
  | c :: cs => if c.isDigit then digitsVal (c.toNat - 48) cs else none

/-- Python `int(s)` on a string: strip whitespace, optional sign, ASCII
decimal digits. `none` models a raised `ValueError`. -/
def pythonInt (s : String) : Option Int :=
  match (pyStrip s).data with
  | '+' :: cs => (pyIntCore cs).map (fun n => (n : Int))
  | '-' :: cs => (pyIntCore cs).map (fun n => -(n : Int))
  | cs => (pyIntCore cs).map (fun n => (n : Int))

/-- The record shape built by `transform_data` (a CleanRecord). -/
structure CleanRecord where
  id : Int
  name : String
  email : String
  age : Option Int
  city : String
  processed_date : String
deriving DecidableEq

/-- `int(record.get('id', 0))`: 0 when the field is absent, TypeError on a
`None` value, ValueError on an unparseable string. -/
def fieldId (r : RawRecord) : Except PyErr Int :=
  match getField r "id" with
  | none => .ok 0
  | some none => .error .typeError
  | some (some s) =>
    match pythonInt s with
    | some n => .ok n
    | none => .error .valueError

/-- `record.get(k, '').strip().<f>()`: empty string when absent,
AttributeError on a `None` value (`None.strip()`), otherwise `f` applied to
the raw string. -/
def fieldStr (r : RawRecord) (k : String) (f : String → String) : Except PyErr String :=
  match getField r k with
  | none => .ok (f "")
  | some none => .error .attributeError
  | some (some s) => .ok (f s)

/-- `int(record.get('age', 0)) if record.get('age') else None`: `none` when
the field is absent, `None`, or the empty string (all falsy); otherwise the
integer parse, ValueError when unparseable. -/
def fieldAge (r : RawRecord) : Except PyErr (Option Int) :=
  match getField r "age" with
  | none => .ok none
  | some none => .ok none
  | some (some s) =>
    if s = "" then .ok none
    else
      match pythonInt s with
      | some n => .ok (some n)
      | none => .error .valueError

/-- Normalisation applied to `name` and `city`: `.strip().title()`. -/
def pyTitleStrip (s : String) : String := pyTitle (pyStrip s)

/-- Normalisation applied to `email`: `.strip().lower()`. -/
def pyLowerStrip (s : String) : String := pyLower (pyStrip s)

/-- The dict literal of `transform_data`, with Python's left-to-right
evaluation order (id, name, email, age, city); the first raised exception
aborts the record (and the batch). -/
def transformRecord (today : String) (r : RawRecord) : Except PyErr CleanRecord :=
  match fieldId r with
  | .error e => .error e
  | .ok i =>
    match fieldStr r "name" pyTitleStrip with
    | .error e => .error e
    | .ok nm =>
      match fieldStr r "email" pyLowerStrip with
      | .error e => .error e
      | .ok em =>
        match fieldAge r with
        | .error e => .error e
        | .ok ag =>
          match fieldStr r "city" pyTitleStrip with
          | .error e => .error e
          | .ok ct => .ok ⟨i, nm, em, ag, ct, today⟩

/-- The data-quality check of `transform_data`:
`transformed_record['email'] and '@' in transformed_record['email']`. -/
def validEmail (e : String) : Bool :=
  !e.data.isEmpty && e.data.contains '@'

/-- Log messages, one per `print` call in the source (timestamps and exact
wording abstracted). -/
inductive Msg where
  | extracting
  | extracted (n : Nat)
  | fileNotFound
  | transforming
  | skipping (r : RawRecord)
  | transformedCount (n : Nat)
  | noData
  | loading
  | insertError (i : Int)
  | loadedCount (n : Nat)
deriving DecidableEq

/-- The `for record in data` loop of `transform_data`: valid records are
collected in order, invalid ones produce a `skipping` message, an exception
aborts the loop (messages already printed are kept). -/
def transformLoop (today : String) : List RawRecord → Except PyErr (List CleanRecord) × List Msg
  | [] => (.ok [], [])
  | r :: rs =>
    match transformRecord today r with
    | .error e => (.error e, [])
    | .ok c =>
      if validEmail c.email then
        ((transformLoop today rs).1.map (fun cs => c :: cs), (transformLoop today rs).2)
      else
        ((transformLoop today rs).1, Msg.skipping r :: (transformLoop today rs).2)

/-- `transform_data`: the loop plus the enclosing prints (the final count is
only printed when no exception was raised). -/
def transformData (today : String) (ds : List RawRecord) :
    Except PyErr (List CleanRecord) × List Msg :=
  (
    (transformLoop today ds).1,
    Msg.transforming ::
      ((transformLoop today ds).2 ++
        match (transformLoop today ds).1 with
        | .ok cs => [Msg.transformedCount cs.length]
        | .error _ => [])
  )

/-- Predicate on a `Msg`: is it a per-record skip report? -/
def isSkip : Msg → Bool
  | .skipping _ => true
  | _ => false

/-- Domain of the `id` expression of the transform: absent, or a string
that `int(...)` accepts. -/
def idOk (r : RawRecord) : Bool :=
  match getField r "id" with
  | none => true
  | some none => false
  | some (some s) => (pythonInt s).isSome

/-- Domain of a `.strip()`-normalised string field: absent or an actual
string (a `None` value would raise AttributeError). -/
def strOk (r : RawRecord) (k : String) : Bool :=
  match getField r k with
  | none => true
  | some none => false
  | some (some _) => true

/-- Domain of the `age` expression: absent, `None` or empty (all falsy), or
a string `int(...)` accepts. -/
def ageOk (r : RawRecord) : Bool :=
  match getField r "age" with
  | none => true
  | some none => true
  | some (some s) => s == "" || (pythonInt s).isSome

/-- Records on which no per-record expression of `transform_data` raises. -/
def recordOk (r : RawRecord) : Bool :=
  idOk r && strOk r "name" && strOk r "email" && ageOk r && strOk r "city"

/-- A row as bound to the six parameters of the `INSERT OR REPLACE`
statement: each nullable column is an `Option`. `id` is always an integer
here because `transform_data` produces it with `int(...)`. -/
structure LoadRecord where
  id : Int
  name : Option String
  email : Option String
  age : Option Int
  city : Option String
  processed_date : Option String
deriving DecidableEq

/-- The dict produced by `transform_data`, viewed as statement parameters. -/
def toLoad (c : CleanRecord) : LoadRecord :=
  ⟨c.id, some c.name, some c.email, c.age, some c.city, some c.processed_date⟩

/-- Whether the `INSERT OR REPLACE` succeeds for this row. With REPLACE
conflict resolution, uniqueness conflicts never raise; only the NOT NULL
constraints on `name` and `email` (columns without defaults) abort the
statement, raised as `sqlite3.IntegrityError ⊂ sqlite3.Error`. -/
def recOk (r : LoadRecord) : Bool :=
  r.name.isSome && r.email.isSome

/-- Whether an existing table row conflicts with the new row `r`: same
primary key `id`, or same non-NULL value in the UNIQUE `email` column
(SQL UNIQUE never treats NULLs as equal). -/
def conflicts (row r : LoadRecord) : Bool :=
  row.id == r.id || (row.email.isSome && row.email == r.email)

/-- SQLite `INSERT OR REPLACE`: delete every conflicting row, then insert
the new row. -/
def upsert (t : List LoadRecord) (r : LoadRecord) : List LoadRecord :=
  t.filter (fun row => !conflicts row r) ++ [r]

/-- One iteration of the insert loop as it affects the table: a failing row
leaves the table unchanged (the aborted statement is rolled back). -/
def step (t : List LoadRecord) (r : LoadRecord) : List LoadRecord :=
  if recOk r then upsert t r else t

/-- The `for record in data` loop of `load_data`: threads the table and the
`inserted` counter; a failing row prints an error message and is skipped. -/
def loadLoop : List LoadRecord → List LoadRecord → Nat → List LoadRecord × Nat × List Msg
  | [], t, n => (t, n, [])
  | r :: rs, t, n =>
    if recOk r then
      loadLoop rs (upsert t r) (n + 1)
    else
      ((loadLoop rs t n).1, (loadLoop rs t n).2.1,
        Msg.insertError r.id :: (loadLoop rs t n).2.2)

/-- The target database: `none` when the `users` table does not exist. -/
abbrev DBState := Option (List LoadRecord)

/-- No successfully inserted record of `data` conflicts with `row` (so a
table row `row` survives a whole load of `data` untouched). -/
def noConf (row : LoadRecord) (data : List LoadRecord) : Prop :=
  ∀ r ∈ data, recOk r = true → conflicts row r = false

/-- `row` is inserted by some record of the batch and survives to the end:
some successful record equals `row` and no later successful record
conflicts with it. -/
def survivor (row : LoadRecord) : List LoadRecord → Prop
  | [] => False
  | r :: rs => (recOk r = true ∧ r = row ∧ noConf row rs) ∨ survivor row rs

/-- Result of one `load_data` call: the committed table, the `inserted`
counter, and the printed messages. -/
structure LoadResult where
  table : List LoadRecord
  count : Nat
  log : List Msg
deriving DecidableEq

/-- `load_data`: CREATE TABLE IF NOT EXISTS, the insert loop, then a single
`conn.commit()` (always reached: every per-row error is caught), so the
final table is committed even when some rows failed. -/
def loadData (data : List LoadRecord) (db : DBState) : LoadResult :=
  let t0 := db.getD []
  { table := (loadLoop data t0 0).1
    count := (loadLoop data t0 0).2.1
    log := Msg.loading :: ((loadLoop data t0 0).2.2 ++
      [Msg.loadedCount (loadLoop data t0 0).2.1]) }

/-- A CSV source: a list of raw rows, each a list of cell strings. -/
abbrev CSVFile := List (List String)

/-- `dict` assignment: replace the value of an existing key, else append. -/
def dictInsert (d : RawRecord) (k : String) (v : Option String) : RawRecord :=
  if d.any (fun p => p.1 == k) then
    d.map (fun p => if p.1 == k then (k, v) else p)
  else
    d ++ [(k, v)]

/-- Zip a header with a row, padding a short row with `None` (DictReader's
`restval`); extra cells beyond the header go to the `None` restkey, which no
string-keyed lookup ever sees, so they are dropped. -/
def zipRestval : List String → List String → List (String × Option String)
  | [], _ => []
  | k :: ks, [] => (k, none) :: zipRestval ks []
  | k :: ks, v :: vs => (k, some v) :: zipRestval ks vs

/-- Build the row-dict for one data row (duplicate header names: the last
column wins, as in `dict(zip(fieldnames, row))`). -/
def makeRecord (header : List String) (row : List String) : RawRecord :=
  (zipRestval header row).foldl (fun d kv => dictInsert d kv.1 kv.2) []

/-- The `for row in csv_reader` loop: `DictReader` silently skips blank rows
(`row == []`). -/
def extractLoop (header : List String) : List (List String) → List RawRecord
  | [] => []
  | row :: rest =>
    if row.isEmpty then extractLoop header rest
    else makeRecord header row :: extractLoop header rest

/-- `extract_data`: a missing file (`none`) is caught as FileNotFoundError,
reported, and yields `[]`; otherwise the first line is the header and each
following non-blank row becomes one `RawRecord`. -/
def extractData : Option CSVFile → List RawRecord × List Msg
  | none => ([], [Msg.extracting, Msg.fileNotFound])
  | some [] => ([], [Msg.extracting, Msg.extracted 0])
  | some (h :: rows) =>
    ((extractLoop h rows), [Msg.extracting, Msg.extracted (extractLoop h rows).length])

/-- Outcome of one `run_etl_pipeline` call: the resulting database state,
whether an exception escaped (transform errors propagate out of the
function), and the printed messages. -/
structure PipeResult where
  db : DBState
  outcome : Except PyErr Unit
  log : List Msg

/-- `run_etl_pipeline`: extract; early return on an empty batch
(`if not raw_data`); transform (an exception leaves the database
untouched); load. -/
def runPipeline (today : String) (fs : Option CSVFile) (db : DBState) : PipeResult :=
  if (extractData fs).1.isEmpty then
    { db := db, outcome := .ok (), log := (extractData fs).2 ++ [Msg.noData] }
  else
    match transformData today (extractData fs).1 with
    | (.error e, tlog) =>
      { db := db, outcome := .error e, log := (extractData fs).2 ++ tlog }
    | (.ok clean, tlog) =>
      { db := some (loadData (clean.map toLoad) db).table
        outcome := .ok ()
        log := (extractData fs).2 ++ tlog ++ (loadData (clean.map toLoad) db).log }

/-! ## Helper lemmas -/

lemma extractLoop_eq (h : List String) (rows : List (List String)) :
    extractLoop h rows = (rows.filter (fun row => !row.isEmpty)).map (makeRecord h) := by
  induction rows with
  | nil => rfl
  | cons row rest ih =>
    by_cases hr : row.isEmpty <;> simp [extractLoop, hr, ih]

lemma transformRecord_fields {today : String} {r : RawRecord} {c : CleanRecord}
    (h : transformRecord today r = .ok c) :
    fieldId r = .ok c.id ∧ fieldStr r "name" pyTitleStrip = .ok c.name ∧
    fieldStr r "email" pyLowerStrip = .ok c.email ∧ fieldAge r = .ok c.age ∧
    fieldStr r "city" pyTitleStrip = .ok c.city ∧ c.processed_date = today := by
  unfold transformRecord at h
  repeat' split at h
  all_goals simp_all
  subst h
  exact ⟨rfl, rfl, rfl, rfl, rfl, rfl⟩

/-! ## C5: the Extractor contract -/

/-- C5 (confirmed): for a path that does not resolve to a file,
`extract_data` reports the condition (the caught FileNotFoundError message)
and returns the empty sequence without raising; for an existing file it
returns one `RawRecord` per (non-blank) data row, in source order, built
from the first line as the field-name header. -/
theorem c5_extract_contract :
    extractData none = ([], [Msg.extracting, Msg.fileNotFound]) ∧
    ∀ (h : List String) (rows : List (List String)),
      (extractData (some (h :: rows))).1
        = (rows.filter (fun row => !row.isEmpty)).map (makeRecord h) := by
  refine ⟨rfl, fun h rows => ?_⟩
  simp [extractData, extractLoop_eq]

/-! ## C6: missing source file -/

/-- C6 (confirmed): when the source file does not exist, `run_etl_pipeline`
returns with the database state exactly as it was (no table created, no row
written), and the log shows the run stopped at the empty-batch check: the
`loading` message of `load_data` is absent, so the Load stage was never
entered. -/
theorem c6_missing_source_untouched (today : String) (db : DBState) :
    runPipeline today none db
      = ⟨db, .ok (), [Msg.extracting, Msg.fileNotFound, Msg.noData]⟩ := rfl

lemma fieldId_absent {r : RawRecord} (h : getField r "id" = none) :
    fieldId r = .ok 0 := by
  unfold fieldId
  rw [h]

lemma fieldId_present {r : RawRecord} {s : String}
    (h : getField r "id" = some (some s)) :
    fieldId r = (match pythonInt s with
      | some n => Except.ok n
      | none => Except.error PyErr.valueError) := by
  unfold fieldId
  rw [h]

lemma fieldStr_absent {r : RawRecord} {k : String} (f : String → String)
    (h : getField r k = none) : fieldStr r k f = .ok (f "") := by
  unfold fieldStr
  rw [h]

lemma fieldStr_present {r : RawRecord} {k s : String} (f : String → String)
    (h : getField r k = some (some s)) : fieldStr r k f = .ok (f s) := by
  unfold fieldStr
  rw [h]

lemma fieldId_isOk {r : RawRecord} (h : idOk r = true) :
    ∃ i, fieldId r = .ok i := by
  unfold idOk at h
  rcases hg : getField r "id" with _ | v
  · exact ⟨0, fieldId_absent hg⟩
  · rcases v with _ | s
    · rw [hg] at h
      simp at h
    · rw [hg] at h
      simp only [Option.isSome_iff_exists] at h
      obtain ⟨n, hp⟩ := h
      exact ⟨n, by rw [fieldId_present hg, hp]⟩

lemma fieldStr_isOk {r : RawRecord} {k : String} (f : String → String)
    (h : strOk r k = true) : ∃ v, fieldStr r k f = .ok v := by
  unfold strOk at h
  rcases hg : getField r k with _ | v
  · exact ⟨f "", fieldStr_absent f hg⟩
  · rcases v with _ | s
    · rw [hg] at h
      simp at h
    · exact ⟨f s, fieldStr_present f hg⟩

lemma fieldAge_absent {r : RawRecord} (h : getField r "age" = none) :
    fieldAge r = .ok none := by
  unfold fieldAge
  rw [h]

lemma fieldAge_noneVal {r : RawRecord} (h : getField r "age" = some none) :
    fieldAge r = .ok none := by
  unfold fieldAge
  rw [h]

lemma fieldAge_present {r : RawRecord} {s : String}
    (h : getField r "age" = some (some s)) :
    fieldAge r = (if s = "" then .ok none
      else match pythonInt s with
        | some n => .ok (some n)
        | none => .error PyErr.valueError) := by
  unfold fieldAge
  rw [h]

lemma ageOk_present {r : RawRecord} {s : String}
    (h : getField r "age" = some (some s)) :
    ageOk r = (s == "" || (pythonInt s).isSome) := by
  unfold ageOk
  rw [h]

lemma fieldAge_isOk {r : RawRecord} (h : ageOk r = true) :
    ∃ a, fieldAge r = .ok a := by
  rcases hg : getField r "age" with _ | v
  · exact ⟨none, fieldAge_absent hg⟩
  · rcases v with _ | s
    · exact ⟨none, fieldAge_noneVal hg⟩
    · rw [ageOk_present hg] at h
      simp only [Bool.or_eq_true, beq_iff_eq, Option.isSome_iff_exists] at h
      rw [fieldAge_present hg]
      rcases h with he | ⟨n, hp⟩
      · exact ⟨none, by simp [he]⟩
      · by_cases he : s = ""
        · exact ⟨none, by simp [he]⟩
        · exact ⟨some n, by simp [he, hp]⟩

lemma recordOk_transform {r : RawRecord} (today : String)
    (h : recordOk r = true) : ∃ c, transformRecord today r = .ok c := by
  unfold recordOk at h
  simp only [Bool.and_eq_true] at h
  obtain ⟨⟨⟨⟨hid, hnm⟩, hem⟩, hag⟩, hct⟩ := h
  obtain ⟨i, h1⟩ := fieldId_isOk hid
  obtain ⟨nm, h2⟩ := fieldStr_isOk pyTitleStrip hnm
  obtain ⟨em, h3⟩ := fieldStr_isOk pyLowerStrip hem
  obtain ⟨ag, h4⟩ := fieldAge_isOk hag
  obtain ⟨ct, h5⟩ := fieldStr_isOk pyTitleStrip hct
  exact ⟨⟨i, nm, em, ag, ct, today⟩, by unfold transformRecord; rw [h1, h2, h3, h4, h5]⟩

lemma transformLoop_total (today : String) (ds : List RawRecord)
    (h : ∀ r ∈ ds, recordOk r = true) :
    ∃ out log, transformLoop today ds = (.ok out, log) ∧
      out.length + (log.filter isSkip).length = ds.length := by
  induction ds with
  | nil => exact ⟨[], [], rfl, rfl⟩
  | cons r rs ih =>
    obtain ⟨out, log, heq, hlen⟩ := ih (fun x hx => h x (List.mem_cons_of_mem r hx))
    obtain ⟨c, hc⟩ := recordOk_transform today (h r (List.mem_cons_self r rs))
    by_cases hv : validEmail c.email
    · refine ⟨c :: out, log, ?_, ?_⟩
      · simp [transformLoop, hc, hv, heq, Except.map]
      · simp only [List.length_cons]
        omega
    · refine ⟨out, Msg.skipping r :: log, ?_, ?_⟩
      · simp [transformLoop, hc, hv, heq]
      · simp [List.filter_cons, isSkip]
        omega

lemma transformLoop_sound (today : String) (ds : List RawRecord)
    (out : List CleanRecord) (log : List Msg)
    (h : transformLoop today ds = (.ok out, log)) :
    ∀ c ∈ out, validEmail c.email = true ∧
      ∃ r ∈ ds, transformRecord today r = .ok c := by
  induction ds generalizing out log with
  | nil =>
    simp only [transformLoop, Prod.mk.injEq, Except.ok.injEq] at h
    obtain ⟨h1, -⟩ := h
    subst h1
    simp
  | cons r rs ih =>
    simp only [transformLoop] at h
    split at h
    next e htr => simp at h
    next c0 htr =>
      have hpair : transformLoop today rs
          = ((transformLoop today rs).1, (transformLoop today rs).2) := rfl
      rcases hres : (transformLoop today rs).1 with e2 | out2 <;> rw [hres] at h hpair
      · exfalso
        cases hv : validEmail c0.email <;> rw [hv] at h <;> simp [Except.map] at h
      · cases hv : validEmail c0.email with
        | false =>
          rw [hv] at h
          simp only [Bool.false_eq_true, if_false, Prod.mk.injEq, Except.ok.injEq] at h
          obtain ⟨h1, -⟩ := h
          subst h1
          intro c hc
          obtain ⟨hval, r2, hr2, htr2⟩ := ih out2 _ hpair c hc
          exact ⟨hval, r2, List.mem_cons_of_mem r hr2, htr2⟩
        | true =>
          rw [hv] at h
          simp only [if_true, Except.map, Prod.mk.injEq, Except.ok.injEq] at h
          obtain ⟨h1, -⟩ := h
          subst h1
          intro c hc
          rcases List.mem_cons.mp hc with hce | hcm
          · subst hce
            exact ⟨hv, r, List.mem_cons_self r rs, htr⟩
          · obtain ⟨hval, r2, hr2, htr2⟩ := ih out2 _ hpair c hcm
            exact ⟨hval, r2, List.mem_cons_of_mem r hr2, htr2⟩

lemma transformLoop_complete (today : String) (ds : List RawRecord)
    (out : List CleanRecord) (log : List Msg)
    (h : transformLoop today ds = (.ok out, log)) :
    ∀ r ∈ ds, ∀ c, transformRecord today r = .ok c →
      validEmail c.email = true → c ∈ out := by
  induction ds generalizing out log with
  | nil => simp
  | cons r rs ih =>
    simp only [transformLoop] at h
    split at h
    next e htr => simp at h
    next c0 htr =>
      have hpair : transformLoop today rs
          = ((transformLoop today rs).1, (transformLoop today rs).2) := rfl
      rcases hres : (transformLoop today rs).1 with e2 | out2 <;> rw [hres] at h hpair
      · exfalso
        cases hv : validEmail c0.email <;> rw [hv] at h <;> simp [Except.map] at h
      · cases hv : validEmail c0.email with
        | false =>
          rw [hv] at h
          simp only [Bool.false_eq_true, if_false, Prod.mk.injEq, Except.ok.injEq] at h
          obtain ⟨h1, -⟩ := h
          subst h1
          intro r0 hr0 c htc hvc
          rcases List.mem_cons.mp hr0 with hre | hrm
          · subst hre
            rw [htr] at htc
            obtain hce : c0 = c := by simpa using htc
            exact absurd (hce ▸ hvc) (by simp [hv])
          · exact ih out2 _ hpair r0 hrm c htc hvc
        | true =>
          rw [hv] at h
          simp only [if_true, Except.map, Prod.mk.injEq, Except.ok.injEq] at h
          obtain ⟨h1, -⟩ := h
          subst h1
          intro r0 hr0 c htc hvc
          rcases List.mem_cons.mp hr0 with hre | hrm
          · subst hre
            rw [htr] at htc
            obtain hce : c0 = c := by simpa using htc
            exact hce ▸ List.mem_cons_self c0 out2
          · exact List.mem_cons_of_mem c0 (ih out2 _ hpair r0 hrm c htc hvc)

lemma loadLoop_table (data t : List LoadRecord) (n : Nat) :
    (loadLoop data t n).1 = List.foldl step t data := by
  induction data generalizing t n with
  | nil => rfl
  | cons r rs ih =>
    by_cases hr : recOk r = true <;> simp [loadLoop, hr, step, ih]

lemma loadLoop_count (data t : List LoadRecord) (n : Nat) :
    (loadLoop data t n).2.1 = n + (data.filter recOk).length := by
  induction data generalizing t n with
  | nil => simp [loadLoop]
  | cons r rs ih =>
    by_cases hr : recOk r = true
    · simp [loadLoop, hr, ih]
      omega
    · simp [loadLoop, hr, ih]

lemma mem_upsert (row : LoadRecord) (t : List LoadRecord) (r : LoadRecord) :
    row ∈ upsert t r ↔ (row ∈ t ∧ conflicts row r = false) ∨ row = r := by
  simp [upsert, List.mem_filter, List.mem_append, Bool.not_eq_true']

lemma noConf_cons (row r : LoadRecord) (rs : List LoadRecord) :
    noConf row (r :: rs)
      ↔ (recOk r = true → conflicts row r = false) ∧ noConf row rs := by
  simp [noConf, List.forall_mem_cons]

lemma mem_foldl_step (row : LoadRecord) (t data : List LoadRecord) :
    row ∈ List.foldl step t data
      ↔ (row ∈ t ∧ noConf row data) ∨ survivor row data := by
  induction data generalizing t with
  | nil => simp [noConf, survivor]
  | cons r rs ih =>
    simp only [List.foldl_cons]
    rw [ih]
    by_cases hr : recOk r = true
    · have hstep : step t r = upsert t r := by simp [step, hr]
      rw [hstep]
      simp only [mem_upsert, noConf_cons, survivor, hr, true_and, forall_const]
      constructor
      · rintro (⟨ht | he, hnc⟩ | hs)
        · exact Or.inl ⟨ht.1, ht.2, hnc⟩
        · exact Or.inr (Or.inl ⟨he.symm, hnc⟩)
        · exact Or.inr (Or.inr hs)
      · rintro (⟨ht, hcf, hnc⟩ | (⟨he, hnc⟩ | hs))
        · exact Or.inl ⟨Or.inl ⟨ht, hcf⟩, hnc⟩
        · exact Or.inl ⟨Or.inr he.symm, hnc⟩
        · exact Or.inr hs
    · have hstep : step t r = t := by simp [step, hr]
      rw [hstep]
      simp [noConf_cons, survivor, hr]

lemma survivor_mem (row : LoadRecord) (data : List LoadRecord)
    (h : survivor row data) : row ∈ data := by
  induction data with
  | nil => simp [survivor] at h
  | cons r rs ih =>
    rcases h with ⟨-, he, -⟩ | hs
    · exact he ▸ List.mem_cons_self r rs
    · exact List.mem_cons_of_mem r (ih hs)

lemma mem_foldl_step_src (row : LoadRecord) (t data : List LoadRecord)
    (h : row ∈ List.foldl step t data) : row ∈ t ∨ row ∈ data := by
  rcases (mem_foldl_step row t data).mp h with ⟨ht, -⟩ | hs
  · exact Or.inl ht
  · exact Or.inr (survivor_mem row data hs)

lemma foldl_step_idem (t data : List LoadRecord) (row : LoadRecord) :
    row ∈ List.foldl step (List.foldl step t data) data
      ↔ row ∈ List.foldl step t data := by
  constructor
  · intro h
    rcases (mem_foldl_step row _ data).mp h with ⟨ht, -⟩ | hs
    · exact ht
    · exact (mem_foldl_step row t data).mpr (Or.inr hs)
  · intro h
    rcases (mem_foldl_step row t data).mp h with ⟨ht, hnc⟩ | hs
    · exact (mem_foldl_step row _ data).mpr (Or.inl ⟨h, hnc⟩)
    · exact (mem_foldl_step row _ data).mpr (Or.inr hs)

/-! ## C1: transform totality -/

/-- C1 (counterexample): the claim says `transform_data` returns normally on
every sequence of RawRecords; instead `int('abc')` in the id expression
raises ValueError, aborting the whole batch. -/
theorem c1_counterexample :
    (transformData "2026-10-12"
        [[("id", some "abc"), ("email", some "ok@example.com")]]).1
      = Except.error PyErr.valueError := rfl

/-- C1 (amended): for every sequence of RawRecords whose id field (when
present) parses as an integer, whose name/email/city values (when present)
are strings rather than None, and whose age field (when present and
non-empty) parses as an integer, `transform_data` returns normally;
invalid records are dropped and reported and processing reaches the end of
the input: each input record yields either an output record or a skip
report. Outside this domain, `int(...)`/`.strip()` raises and aborts the
batch. -/
theorem c1_transform_total (today : String) (ds : List RawRecord)
    (h : ∀ r ∈ ds, recordOk r = true) :
    ∃ out, (transformData today ds).1 = .ok out ∧
      out.length + ((transformData today ds).2.filter isSkip).length
        = ds.length := by
  obtain ⟨out, log, heq, hlen⟩ := transformLoop_total today ds h
  refine ⟨out, ?_, ?_⟩
  · simp [transformData, heq]
  · simp [transformData, heq, List.filter_append, isSkip, hlen]

/-- C1 (witness): the amended theorem applied to a concrete two-record
batch whose second record lacks a valid email and is skipped. -/
theorem c1_transform_total_witness :
    ∃ out, (transformData "2026-10-12"
        [[("id", some "1"), ("email", some "e@x.com")], [("name", some "bob")]]).1
        = .ok out ∧
      out.length + ((transformData "2026-10-12"
        [[("id", some "1"), ("email", some "e@x.com")], [("name", some "bob")]]).2.filter
          isSkip).length = 2 :=
  c1_transform_total "2026-10-12"
    [[("id", some "1"), ("email", some "e@x.com")], [("name", some "bob")]]
    (by decide)

/-! ## C2: the id field -/

/-- C2 (counterexample): the claim says an unparseable raw `id` value maps
to a transformed record with id 0; instead `int('12x')` raises ValueError
and no transformed record is produced at all. -/
theorem c2_counterexample :
    transformRecord "2026-10-12" [("id", some "12x"), ("email", some "a@b.com")]
      = Except.error PyErr.valueError := rfl

/-- C2 (amended): the transformed record's id is the integer parse of the
raw `id` value, and is 0 whenever the field is absent; when the field is
present but not parseable as an integer, `transform_data` raises ValueError
and produces no transformed record. -/
theorem c2_id_parse (today : String) (r : RawRecord) :
    (getField r "id" = none → ∀ c, transformRecord today r = .ok c → c.id = 0) ∧
    (∀ s, getField r "id" = some (some s) → ∀ c, transformRecord today r = .ok c →
      pythonInt s = some c.id) ∧
    (∀ s, getField r "id" = some (some s) → pythonInt s = none →
      transformRecord today r = .error PyErr.valueError) := by
  refine ⟨fun habs c hc => ?_, fun s hs c hc => ?_, fun s hs hp => ?_⟩
  · have h1 := (transformRecord_fields hc).1
    rw [fieldId_absent habs] at h1
    simpa using h1.symm
  · have h1 := (fieldId_present hs).symm.trans (transformRecord_fields hc).1
    rcases hp : pythonInt s with _ | n <;> rw [hp] at h1 <;> simp_all
  · unfold transformRecord
    rw [fieldId_present hs, hp]

/-- C2 (witness): a parseable id is parsed; the amended theorem applied at a
concrete record. -/
theorem c2_id_parse_witness : pythonInt "42" = some 42 :=
  (c2_id_parse "2026-10-12" [("id", some "42"), ("email", some "a@b.com")]).2.1
    "42" rfl ⟨42, "", "a@b.com", none, "", "2026-10-12"⟩ rfl

/-! ## C7: name/city/email normalization -/

/-- C7 (confirmed): for every record kept by the Transformer, `name` and
`city` are the raw values stripped and title-cased and `email` is the raw
value stripped and lower-cased; moreover "  alice  " maps to "Alice",
"new york" to "New York" and "  Bob@EXAMPLE.com " to "bob@example.com". -/
theorem c7_normalization (today : String) (r : RawRecord) (c : CleanRecord)
    (hok : transformRecord today r = Except.ok c)
    (_hkept : validEmail c.email = true) :
    (∀ s, getField r "name" = some (some s) → c.name = pyTitle (pyStrip s)) ∧
    (∀ s, getField r "city" = some (some s) → c.city = pyTitle (pyStrip s)) ∧
    (∀ s, getField r "email" = some (some s) → c.email = pyLower (pyStrip s)) ∧
    pyTitle (pyStrip "  alice  ") = "Alice" ∧
    pyTitle (pyStrip "new york") = "New York" ∧
    pyLower (pyStrip "  Bob@EXAMPLE.com ") = "bob@example.com" := by
  obtain ⟨-, hnm, hem, -, hct, -⟩ := transformRecord_fields hok
  refine ⟨fun s hs => ?_, fun s hs => ?_, fun s hs => ?_, by decide, by decide, by decide⟩
  · unfold fieldStr at hnm
    rw [hs] at hnm
    simpa [pyTitleStrip] using hnm.symm
  · unfold fieldStr at hct
    rw [hs] at hct
    simpa [pyTitleStrip] using hct.symm
  · unfold fieldStr at hem
    rw [hs] at hem
    simpa [pyLowerStrip] using hem.symm

/-- C7 (witness): the normalization theorem applied at a concrete kept
record holding the three example values. -/
theorem c7_normalization_witness :
    (⟨0, "Alice", "bob@example.com", none, "New York", "2026-10-12"⟩ : CleanRecord).name
      = pyTitle (pyStrip "  alice  ") :=
  (c7_normalization "2026-10-12"
    [("name", some "  alice  "), ("email", some " Bob@EXAMPLE.com "),
      ("city", some "new york")]
    ⟨0, "Alice", "bob@example.com", none, "New York", "2026-10-12"⟩
    rfl rfl).1 "  alice  " rfl

lemma loadLoop_log_mem (r : LoadRecord) (hr : recOk r = false) :
    ∀ (xs ys t : List LoadRecord) (n : Nat),
      Msg.insertError r.id ∈ (loadLoop (xs ++ r :: ys) t n).2.2 := by
  intro xs
  induction xs with
  | nil =>
    intro ys t n
    simp [loadLoop, hr]
  | cons x xs ih =>
    intro ys t n
    by_cases hx : recOk x = true
    · simpa [loadLoop, hx] using ih ys (upsert t x) (n + 1)
    · simp only [List.cons_append, loadLoop, hx, if_false, Bool.false_eq_true]
      exact List.mem_cons_of_mem _ (ih ys t n)

/-! ## C8: loader error handling -/

/-- C8 (confirmed): `load_data` folds the per-record upserts over the batch
in order; the reported count equals the number of records whose upsert
succeeded (with INSERT OR REPLACE only a NOT NULL violation can fail a
record); and a failing record is reported and skipped while every other
record still reaches the single final commit, so the committed table equals
the one obtained with the failing record removed. -/
theorem c8_loader_contract (data : List LoadRecord) (db : DBState) :
    (loadData data db).table = List.foldl step (db.getD []) data ∧
    (loadData data db).count = (data.filter recOk).length ∧
    ∀ xs r ys, data = xs ++ r :: ys → recOk r = false →
      (loadData data db).table = (loadData (xs ++ ys) db).table ∧
      Msg.insertError r.id ∈ (loadData data db).log := by
  refine ⟨by simp [loadData, loadLoop_table], by simp [loadData, loadLoop_count], ?_⟩
  intro xs r ys hdata hr
  subst hdata
  constructor
  · simp only [loadData]
    rw [loadLoop_table, loadLoop_table, List.foldl_append, List.foldl_append,
      List.foldl_cons]
    have hstep : step (List.foldl step (db.getD []) xs) r
        = List.foldl step (db.getD []) xs := by simp [step, hr]
    rw [hstep]
  · simp only [loadData]
    exact List.mem_cons_of_mem _
      (List.mem_append_left _ (loadLoop_log_mem r hr xs ys _ _))

/-- C8 (witness): a three-record batch whose middle record has a NULL name;
the failing record is reported and skipped, the other two are persisted and
counted. -/
theorem c8_loader_contract_witness :
    (loadData
        [⟨1, some "A", some "a@a.com", none, some "X", some "d"⟩,
          ⟨5, none, some "b@b.com", none, some "X", some "d"⟩,
          ⟨2, some "B", some "c@c.com", none, some "X", some "d"⟩] none).count = 2 ∧
    (loadData
        [⟨1, some "A", some "a@a.com", none, some "X", some "d"⟩,
          ⟨5, none, some "b@b.com", none, some "X", some "d"⟩,
          ⟨2, some "B", some "c@c.com", none, some "X", some "d"⟩] none).table
      = (loadData
        [⟨1, some "A", some "a@a.com", none, some "X", some "d"⟩,
          ⟨2, some "B", some "c@c.com", none, some "X", some "d"⟩] none).table ∧
    Msg.insertError 5 ∈ (loadData
        [⟨1, some "A", some "a@a.com", none, some "X", some "d"⟩,
          ⟨5, none, some "b@b.com", none, some "X", some "d"⟩,
          ⟨2, some "B", some "c@c.com", none, some "X", some "d"⟩] none).log :=
  ⟨(c8_loader_contract _ none).2.1,
    ((c8_loader_contract _ none).2.2
      [⟨1, some "A", some "a@a.com", none, some "X", some "d"⟩]
      ⟨5, none, some "b@b.com", none, some "X", some "d"⟩
      [⟨2, some "B", some "c@c.com", none, some "X", some "d"⟩] rfl rfl).1,
    ((c8_loader_contract _ none).2.2
      [⟨1, some "A", some "a@a.com", none, some "X", some "d"⟩]
      ⟨5, none, some "b@b.com", none, some "X", some "d"⟩
      [⟨2, some "B", some "c@c.com", none, some "X", some "d"⟩] rfl rfl).2⟩

/-! ## C4: pipeline idempotence -/

/-- C4 (confirmed): running the full pipeline twice on the same source and
target with the transform date held fixed yields the same final table
contents as running it once — the table exists in exactly the same cases
and contains exactly the same rows (the second run upserts each row over an
identical row; SQL table contents are a set of rows, so contents are
compared by membership). -/
theorem c4_pipeline_idempotent (today : String) (fs : Option CSVFile) (db : DBState) :
    (runPipeline today fs ((runPipeline today fs db).db)).db.isSome
        = (runPipeline today fs db).db.isSome ∧
    ∀ row, row ∈ ((runPipeline today fs ((runPipeline today fs db).db)).db.getD [])
        ↔ row ∈ ((runPipeline today fs db).db.getD []) := by
  by_cases hemp : (extractData fs).1.isEmpty
  · have hdb : ∀ d : DBState, (runPipeline today fs d).db = d := by
      intro d
      unfold runPipeline
      rw [if_pos hemp]
    simp [hdb]
  · rcases hres : (transformData today (extractData fs).1).1 with e | clean
    · have hdb : ∀ d : DBState, (runPipeline today fs d).db = d := by
        intro d
        unfold runPipeline
        rw [if_neg hemp]
        have hp2 : transformData today (extractData fs).1
            = (.error e, (transformData today (extractData fs).1).2) := by
          rw [← hres]
        rw [hp2]
      simp [hdb]
    · have htab : ∀ d : DBState, (runPipeline today fs d).db
          = some (List.foldl step (d.getD []) (clean.map toLoad)) := by
        intro d
        unfold runPipeline
        rw [if_neg hemp]
        have hp2 : transformData today (extractData fs).1
            = (.ok clean, (transformData today (extractData fs).1).2) := by
          rw [← hres]
        rw [hp2]
        simp [loadData, loadLoop_table]
      refine ⟨by simp [htab], fun row => ?_⟩
      rw [htab db, htab (some (List.foldl step (db.getD []) (clean.map toLoad)))]
      simp only [Option.getD_some]
      exact foldl_step_idem (db.getD []) (clean.map toLoad) row

lemma filter_id_upsert (t : List LoadRecord) (v : LoadRecord) :
    (upsert t v).filter (fun row => row.id == v.id) = [v] := by
  simp only [upsert, List.filter_append]
  have h1 : (t.filter (fun row => !conflicts row v)).filter
      (fun row => row.id == v.id) = [] := by
    simp only [List.filter_filter]
    apply List.filter_eq_nil_iff.mpr
    intro a ha
    by_cases hid : a.id = v.id
    · simp [conflicts, hid]
    · simp [hid]
  rw [h1]
  simp

lemma foldl_step_filter_id (v : LoadRecord) (L : List LoadRecord)
    (h1 : ∀ r ∈ L, r.id ≠ v.id) (h2 : ∀ r ∈ L, conflicts v r = false) :
    ∀ T, T.filter (fun row => row.id == v.id) = [v] →
      (List.foldl step T L).filter (fun row => row.id == v.id) = [v] := by
  induction L with
  | nil =>
    intro T hT
    simpa using hT
  | cons r rs ih =>
    intro T hT
    simp only [List.foldl_cons]
    refine ih (fun x hx => h1 x (List.mem_cons_of_mem r hx))
      (fun x hx => h2 x (List.mem_cons_of_mem r hx)) _ ?_
    by_cases hr : recOk r = true
    · simp only [step, hr, if_true, upsert, List.filter_append]
      have ha : (T.filter (fun row => !conflicts row r)).filter
          (fun row => row.id == v.id)
          = (T.filter (fun row => row.id == v.id)).filter
              (fun row => !conflicts row r) := by
        simp only [List.filter_filter]
        apply List.filter_congr
        intro a ha
        exact Bool.and_comm _ _
      rw [ha, hT]
      have hb : ([v].filter fun row => !conflicts row r) = [v] := by
        simp [h2 r (List.mem_cons_self r rs)]
      have hc : ([r].filter fun row => row.id == v.id) = [] := by
        simp [h1 r (List.mem_cons_self r rs)]
      rw [hb, hc, List.append_nil]
    · simp only [step, hr]
      simpa using hT

/-! ## C9: same-id records within one batch -/

/-- C9 (counterexample): the claim says that after a batch containing two
records with the same id, the table holds exactly one row for that id with
the fields of the later record. Here records one and two share id 0, but a
third record with a different id carries the same email as record two; its
INSERT OR REPLACE deletes the id-0 row through the email-uniqueness
constraint, leaving no row with id 0 at all. -/
theorem c9_counterexample :
    ((loadData
        (([⟨0, "A", "a@x.com", none, "C", "2026-02-03"⟩,
          ⟨0, "B", "b@x.com", none, "C", "2026-02-03"⟩,
          ⟨7, "G", "b@x.com", none, "C", "2026-02-03"⟩] : List CleanRecord).map toLoad)
        none).table.filter (fun row => row.id == 0)) = [] := rfl

/-- C9 (amended): when two CleanRecords in the batch carry the same id, the
later silently replaces the earlier: provided no later record in the batch
carries that id again nor (under a different id) the same email as the last
such record, the final table contains exactly one row for that id, holding
the fields of the last record with that id. (Without the email proviso, a
later different-id record with an equal email deletes the row via the
email-uniqueness REPLACE, leaving no row for that id.) -/
theorem c9_same_id_replacement (db : DBState) (xs ys : List CleanRecord)
    (last : CleanRecord)
    (_hdup : ∃ p ∈ xs, p.id = last.id)
    (hys_id : ∀ p ∈ ys, p.id ≠ last.id)
    (hys_em : ∀ p ∈ ys, p.email ≠ last.email) :
    (loadData ((xs ++ last :: ys).map toLoad) db).table.filter
        (fun row => row.id == (toLoad last).id) = [toLoad last] := by
  simp only [loadData, loadLoop_table, List.map_append, List.map_cons,
    List.foldl_append, List.foldl_cons]
  have hstep : step (List.foldl step (db.getD []) (xs.map toLoad)) (toLoad last)
      = upsert (List.foldl step (db.getD []) (xs.map toLoad)) (toLoad last) := by
    simp [step, recOk, toLoad]
  rw [hstep]
  refine foldl_step_filter_id (toLoad last) (ys.map toLoad) ?_ ?_ _
    (filter_id_upsert _ _)
  · intro x hx
    obtain ⟨p, hp, rfl⟩ := List.mem_map.mp hx
    simpa [toLoad] using hys_id p hp
  · intro x hx
    obtain ⟨p, hp, rfl⟩ := List.mem_map.mp hx
    simp [conflicts, toLoad]
    exact ⟨fun he => hys_id p hp he.symm, fun he => hys_em p hp he.symm⟩

/-- C9 (witness): the amended theorem at a concrete batch: ids 0, 0, 3 with
pairwise distinct emails; the final table holds exactly the second record
under id 0. -/
theorem c9_same_id_replacement_witness :
    ((loadData
        (([⟨0, "A", "a@x.com", none, "C", "d"⟩,
          ⟨0, "B", "b@x.com", none, "C", "d"⟩,
          ⟨3, "G", "c@x.com", none, "C", "d"⟩] : List CleanRecord).map toLoad)
        none).table.filter
          (fun row => row.id == (toLoad (⟨0, "B", "b@x.com", none, "C", "d"⟩ : CleanRecord)).id))
      = [toLoad ⟨0, "B", "b@x.com", none, "C", "d"⟩] :=
  c9_same_id_replacement none
    [⟨0, "A", "a@x.com", none, "C", "d"⟩]
    [⟨3, "G", "c@x.com", none, "C", "d"⟩]
    ⟨0, "B", "b@x.com", none, "C", "d"⟩
    ⟨⟨0, "A", "a@x.com", none, "C", "d"⟩, List.mem_singleton.mpr rfl, rfl⟩
    (by decide) (by decide)

/-! ## C3: the validation policy -/

/-- C3 (confirmed): whenever `transform_data` returns an output batch, a
transformed record appears in it exactly when its normalized email is
non-empty and contains the character @ (forward: every output record has a
valid email and comes from an input record; backward: every input record
whose transform has a valid email appears); consequently, after any full
pipeline run, every row of the target table either predates the run or is
the image of a valid-email CleanRecord. -/
theorem c3_validation_policy (today : String) (ds : List RawRecord)
    (out : List CleanRecord)
    (h : (transformData today ds).1 = .ok out) :
    (∀ c ∈ out, validEmail c.email = true ∧
      ∃ r ∈ ds, transformRecord today r = .ok c) ∧
    (∀ r ∈ ds, ∀ c, transformRecord today r = .ok c →
      validEmail c.email = true → c ∈ out) ∧
    (∀ (today2 : String) (fs : Option CSVFile) (db : DBState) (row : LoadRecord),
      row ∈ ((runPipeline today2 fs db).db.getD []) →
      row ∈ db.getD [] ∨ ∃ c, validEmail c.email = true ∧ row = toLoad c) := by
  have h1 : (transformLoop today ds).1 = .ok out := h
  have hpair : transformLoop today ds = (.ok out, (transformLoop today ds).2) := by
    rw [← h1]
  refine ⟨transformLoop_sound today ds out _ hpair,
    transformLoop_complete today ds out _ hpair, ?_⟩
  intro today2 fs db row hrow
  by_cases hemp : (extractData fs).1.isEmpty
  · unfold runPipeline at hrow
    rw [if_pos hemp] at hrow
    exact Or.inl hrow
  · unfold runPipeline at hrow
    rw [if_neg hemp] at hrow
    rcases hres : (transformData today2 (extractData fs).1).1 with e | clean
    · have hp2 : transformData today2 (extractData fs).1
          = (.error e, (transformData today2 (extractData fs).1).2) := by
        rw [← hres]
      rw [hp2] at hrow
      exact Or.inl hrow
    · have hp2 : transformData today2 (extractData fs).1
          = (.ok clean, (transformData today2 (extractData fs).1).2) := by
        rw [← hres]
      rw [hp2] at hrow
      simp only [Option.getD_some] at hrow
      have htab : (loadData (clean.map toLoad) db).table
          = List.foldl step (db.getD []) (clean.map toLoad) := by
        simp [loadData, loadLoop_table]
      rw [htab] at hrow
      rcases mem_foldl_step_src row _ _ hrow with ht | hm
      · exact Or.inl ht
      · obtain ⟨c, hc, rfl⟩ := List.mem_map.mp hm
        have hpair2 : transformLoop today2 (extractData fs).1
            = (.ok clean, (transformLoop today2 (extractData fs).1).2) := by
          have h2 : (transformLoop today2 (extractData fs).1).1 = .ok clean := hres
          rw [← h2]
        exact Or.inr ⟨c,
          (transformLoop_sound today2 (extractData fs).1 clean _ hpair2 c hc).1, rfl⟩

/-- C3 (witness): the policy theorem applied at a one-record batch whose
record carries a valid email and is kept. -/
theorem c3_validation_policy_witness :
    validEmail (⟨0, "", "a@b.com", none, "", "2026-01-02"⟩ : CleanRecord).email
      = true :=
  ((c3_validation_policy "2026-01-02" [[("email", some "a@b.com")]]
      [⟨0, "", "a@b.com", none, "", "2026-01-02"⟩] rfl).1
    ⟨0, "", "a@b.com", none, "", "2026-01-02"⟩ (List.mem_singleton.mpr rfl)).1

/-! ## C10: empty batch after validation still loads -/

/-- C10 (confirmed): when the source file exists and yields at least one raw
record but validation drops every record, the pipeline still calls
`load_data` with the empty batch: the users table is created (empty, via
CREATE TABLE IF NOT EXISTS — an existing table is kept as is) and a count
of 0 loaded records is reported, unlike the missing-source case. -/
theorem c10_all_dropped_creates_table (today : String) (f : CSVFile) (db : DBState)
    (hne : (extractData (some f)).1 ≠ [])
    (hdrop : (transformData today (extractData (some f)).1).1 = Except.ok []) :
    (runPipeline today (some f) db).db = some (db.getD []) ∧
    Msg.loadedCount 0 ∈ (runPipeline today (some f) db).log := by
  have hemp : ¬((extractData (some f)).1.isEmpty = true) := by
    rw [List.isEmpty_iff]
    exact hne
  have hp2 : transformData today (extractData (some f)).1
      = (.ok [], (transformData today (extractData (some f)).1).2) := by
    rw [← hdrop]
  constructor
  · unfold runPipeline
    rw [if_neg hemp, hp2]
    simp [loadData, loadLoop]
  · unfold runPipeline
    rw [if_neg hemp, hp2]
    simp [loadData, loadLoop]

/-- C10 (witness): a file with one data row whose email lacks @; the record
is extracted, dropped by validation, and the empty load still creates the
table and reports 0. -/
theorem c10_all_dropped_creates_table_witness :
    (runPipeline "2026-10-12" (some [["id", "email"], ["1", "nope"]]) none).db
        = some [] ∧
    Msg.loadedCount 0
      ∈ (runPipeline "2026-10-12" (some [["id", "email"], ["1", "nope"]]) none).log :=
  c10_all_dropped_creates_table "2026-10-12" [["id", "email"], ["1", "nope"]] none
    (by decide) rfl

end ETL
